import Mathlib

/-!
Shallow embedding of chrony's `hwclock.c` (tracking of hardware clocks).

Timestamps and all double-valued quantities are modelled as rationals (ℚ);
timespec arithmetic (`UTI_DiffTimespecsToDouble a b = a - b`,
`UTI_AddDoubleToTimespec t d = t + d`) becomes plain ℚ arithmetic.

External collaborators that live outside `hwclock.c` are passed in as
oracle parameters, exactly at the interface the C code consumes:
  - `RGR_FindBestRobustRegression` (regress.c): a `fit` function returning a
    `RegrResult` (validity flag, intercept, slope, run count, trim index);
  - the quantile estimator (quantiles.c): `HCL_ProcessReadings` receives the
    two quantile values it queries plus the system precision quantum;
  - `LCL_CookTime` (local.c): a function `lclCook : ℚ → ℚ`;
  - `LCL_ReadAbsoluteFrequency`: the current frequency in ppm;
  - `UTI_AdjustTimespec` (util.c): an arbitrary adjustment function in
    `handle_slew`.
-/

/-- MIN_SAMPLES from hwclock.c line 41. -/
def MIN_SAMPLES : ℤ := 2

/-- MAX_SAMPLES from hwclock.c line 42. -/
def MAX_SAMPLES : ℤ := 64

/-- MAX_FREQ_OFFSET from hwclock.c line 45: maximum acceptable frequency
offset of the clock, 2.0/3.0. -/
def MAX_FREQ_OFFSET : ℚ := 2 / 3

/-- CLAMP macro from chrony's util.h: CLAMP(min, x, max) = MAX(min, MIN(x, max)). -/
def CLAMP (lo x hi : ℤ) : ℤ := max lo (min x hi)

/-- The state of `struct HCL_Instance_Record` (hwclock.c lines 54-87).
The sample arrays are total functions `ℕ → ℚ`; only indices below
`max_samples` correspond to the C arrays.  The delay-quantile estimator is
external state (quantiles.c) and is not part of this record; the values it
returns are parameters of `HCL_ProcessReadings`. -/
structure ClockModel where
  hw_ref : ℚ
  local_ref : ℚ
  x_data : ℕ → ℚ
  y_data : ℕ → ℚ
  min_samples : ℕ
  max_samples : ℕ
  n_samples : ℕ
  last_err : ℚ
  min_separation : ℚ
  precision : ℚ
  valid_coefs : Bool
  offset : ℚ
  frequency : ℚ

/-- Result record of `RGR_FindBestRobustRegression` (regress.c, external):
validity flag and the values written through its out-pointers
(`b0` intercept, `b1` slope, `n_runs`, `best_start`). -/
structure RegrResult where
  valid : Bool
  offset : ℚ
  slope : ℚ
  n_runs : ℤ
  best_start : ℕ

/-- Pointwise array update used to model single C array stores. -/
def upd (f : ℕ → ℚ) (i : ℕ) (v : ℚ) : ℕ → ℚ :=
  fun j => if j = i then v else f j

/-- The rebase/shift loop of `HCL_AccumulateSample` (hwclock.c lines 272-275):
`for (i = max_samples - n_samples; i < max_samples; i++) data[i-1] = data[i] - d`.
The loop executes exactly `n_samples` iterations starting at
`i = max_samples - n_samples`; here `fuel` is the number of remaining
iterations and `i` the current loop index.  Each iteration reads slot `i`,
which no earlier iteration wrote (writes go to `i - 1` and `i` increases),
so the sequential rendering is exact. -/
def shiftLoop (d : ℚ) : ℕ → ℕ → (ℕ → ℚ) → (ℕ → ℚ)
  | 0, _, a => a
  | fuel + 1, i, a => shiftLoop d fuel (i + 1) (upd a (i - 1) (a i - d))

/-- The sample-window shift phase of `HCL_AccumulateSample`
(hwclock.c lines 259-276): drop the oldest sample when at capacity,
detect a clock discontinuity (`hw_delta <= 0.0 || local_delta <
min_separation / 2.0`, resetting `n_samples` to 0), and rebase every
remaining live pair by the reference deltas. -/
def accumShift (clock : ClockModel) (hw_ts local_ts local_freq : ℚ) : ClockModel :=
  if clock.n_samples = 0 then clock
  else
    let c1 := if clock.max_samples ≤ clock.n_samples
              then { clock with n_samples := clock.n_samples - 1 } else clock
    let hw_delta := hw_ts - c1.hw_ref
    let local_delta := (local_ts - c1.local_ref) / local_freq
    let c2 := if hw_delta ≤ 0 ∨ local_delta < c1.min_separation / 2
              then { c1 with n_samples := 0 } else c1
    { c2 with
      y_data := shiftLoop hw_delta c2.n_samples (c2.max_samples - c2.n_samples) c2.y_data,
      x_data := shiftLoop local_delta c2.n_samples (c2.max_samples - c2.n_samples) c2.x_data }

/-- The append phase of `HCL_AccumulateSample` (hwclock.c lines 278-281):
increment the live count and install the new reference point and error.
The new sample itself is never written: relative to the new references it
is the pair (0, 0) already sitting in the last array slot. -/
def appendSample (clock : ClockModel) (hw_ts local_ts err : ℚ) : ClockModel :=
  { clock with
    n_samples := clock.n_samples + 1,
    hw_ref := hw_ts,
    local_ref := local_ts,
    last_err := err }

/-- The regression call of `HCL_AccumulateSample` (hwclock.c lines 284-288):
the fitter is applied to the live window `data + max_samples - n_samples`
of length `n_samples`. -/
def windowFit (clock : ClockModel)
    (fit : (ℕ → ℚ) → (ℕ → ℚ) → ℕ → RegrResult) : RegrResult :=
  fit (fun k => clock.x_data (clock.max_samples - clock.n_samples + k))
      (fun k => clock.y_data (clock.max_samples - clock.n_samples + k))
      clock.n_samples

/-- The sample-trimming step of `HCL_AccumulateSample` (hwclock.c lines 298-299):
`if (n_samples > min_samples) n_samples -= MIN(best_start, n_samples - min_samples)`. -/
def trimStep (n min_s best_start : ℕ) : ℕ :=
  if min_s < n then n - min best_start (n - min_s) else n

/-- The post-fit phase of `HCL_AccumulateSample` (hwclock.c lines 284-308):
store the fit, return early on an invalid fit, otherwise de-normalize the
frequency, trim unneeded samples, and apply the sanity check
`fabs(offset) > err || fabs(frequency - 1.0) > MAX_FREQ_OFFSET`,
which on failure drops all samples and clears `valid_coefs`. -/
def accumPost (clock : ClockModel) (res : RegrResult) (local_freq err : ℚ) : ClockModel :=
  let c1 := { clock with valid_coefs := res.valid, offset := res.offset }
  if res.valid then
    let c2 := { c1 with frequency := res.slope / local_freq }
    let c3 := { c2 with n_samples := trimStep c2.n_samples c2.min_samples res.best_start }
    if err < |c3.offset| ∨ MAX_FREQ_OFFSET < |c3.frequency - 1|
    then { c3 with n_samples := 0, valid_coefs := false }
    else c3
  else c1

/-- `HCL_AccumulateSample` (hwclock.c lines 250-313).  `fit` stands for
`RGR_FindBestRobustRegression` and `freq_ppm` for
`LCL_ReadAbsoluteFrequency()`, both external; `local_freq` is computed as
in line 257. -/
def HCL_AccumulateSample (clock : ClockModel)
    (fit : (ℕ → ℚ) → (ℕ → ℚ) → ℕ → RegrResult)
    (freq_ppm hw_ts local_ts err : ℚ) : ClockModel :=
  let local_freq := 1 - freq_ppm / 1000000
  let c2 := appendSample (accumShift clock hw_ts local_ts local_freq) hw_ts local_ts err
  accumPost c2 (windowFit c2 fit) local_freq err

/-- `HCL_CookTime` (hwclock.c lines 317-334): fails when `valid_coefs` is
clear; otherwise converts the raw hardware timestamp through the fitted
line and reports the last accumulated sample's error. -/
def HCL_CookTime (clock : ClockModel) (raw : ℚ) : Option (ℚ × ℚ) :=
  if clock.valid_coefs then
    let elapsed := raw - clock.hw_ref
    let offset := elapsed / clock.frequency - clock.offset
    some (clock.local_ref + offset, clock.last_err)
  else none

/-- `HCL_CreateInstance` (hwclock.c lines 108-135).  `mem_x`, `mem_y` model
the uninitialized malloc'ed sample arrays, of which the constructor
zero-initializes only the last slot (lines 120-121).  The scalar fields
`hw_ref`, `local_ref`, `last_err`, `offset`, `frequency` are uninitialized
in the C structure and never read before being written (every reader is
guarded by `n_samples` or `valid_coefs`); they are modelled as 0. -/
def HCL_CreateInstance (min_samples max_samples : ℤ)
    (min_separation precision : ℚ) (mem_x mem_y : ℕ → ℚ) : ClockModel :=
  let min_s := CLAMP MIN_SAMPLES min_samples MAX_SAMPLES
  let max_s0 := CLAMP MIN_SAMPLES max_samples MAX_SAMPLES
  let max_s := max min_s max_s0
  { hw_ref := 0
    local_ref := 0
    x_data := upd mem_x (max_s.toNat - 1) 0
    y_data := upd mem_y (max_s.toNat - 1) 0
    min_samples := min_s.toNat
    max_samples := max_s.toNat
    n_samples := 0
    last_err := 0
    min_separation := min_separation
    precision := precision
    valid_coefs := false
    offset := 0
    frequency := 1 }

/-- `handle_slew` (hwclock.c lines 91-104): the reference-clock change
handler.  `UTI_AdjustTimespec` (util.c, external) is modelled as an
arbitrary adjustment function `adjust` applied to `local_ref`. -/
def handle_slew (clock : ClockModel) (adjust : ℚ → ℚ) (dfreq : ℚ) : ClockModel :=
  let c1 := if clock.n_samples ≠ 0 then { clock with local_ref := adjust clock.local_ref }
            else clock
  if c1.valid_coefs then { c1 with frequency := c1.frequency / (1 - dfreq) } else c1

/-- Raw reading delay `tss[i][2] - tss[i][0]` (hwclock.c line 209).
A reading is the triple (poll-start, hw-sample, poll-end). -/
def rawDelay (t : ℚ × ℚ × ℚ) : ℚ := t.2.2 - t.1

/-- Frequency-corrected reading delay (hwclock.c lines 184, 210). -/
def readingDelay (freq : ℚ) (t : ℚ × ℚ × ℚ) : ℚ := freq * rawDelay t

/-- The correction multiplier of `HCL_ProcessReadings`
(hwclock.c lines 174-181): the ratio of the cooked to the raw span of the
batch when the raw span is positive, 1 otherwise. -/
def batchFreq (lclCook : ℚ → ℚ) (tss : List (ℚ × ℚ × ℚ)) : ℚ :=
  match tss with
  | [] => 1
  | t0 :: rest =>
    let tl := rest.getLastD t0
    if t0.1 < tl.2.2
    then (lclCook t0.1 - lclCook tl.2.2) / (t0.1 - tl.2.2)
    else 1

/-- Lower edge of the delay acceptance band (hwclock.c line 204). -/
def lowDelay (qlow qhigh : ℚ) : ℚ := min qlow qhigh

/-- Upper edge of the delay acceptance band (hwclock.c line 205). -/
def highDelay (qlow qhigh local_prec : ℚ) : ℚ :=
  max qhigh (lowDelay qlow qhigh + local_prec)

/-- Readings whose corrected delay lies inside the acceptance band
(hwclock.c lines 208-219, the `continue` condition negated). -/
def acceptedReadings (freq qlow qhigh local_prec : ℚ)
    (tss : List (ℚ × ℚ × ℚ)) : List (ℚ × ℚ × ℚ) :=
  tss.filter (fun t => decide (lowDelay qlow qhigh ≤ readingDelay freq t ∧
                               readingDelay freq t ≤ highDelay qlow qhigh local_prec))

/-- The minimum-delay scan of the first loop of `HCL_ProcessReadings`
(hwclock.c lines 192-195): fold keeping the earliest reading attaining the
strictly smallest delay, seeded with reading 0. -/
def minDelayFold (freq : ℚ) : List (ℚ × ℚ × ℚ) → (ℚ × ℚ × ℚ) × ℚ → (ℚ × ℚ × ℚ) × ℚ
  | [], acc => acc
  | t :: rest, acc =>
    let d := readingDelay freq t
    if acc.2 > d then minDelayFold freq rest (t, d) else minDelayFold freq rest acc

/-- Minimum-delay fallback of `HCL_ProcessReadings` (hwclock.c lines 192-195,
230-235): the earliest reading attaining the smallest corrected delay,
paired with that delay. -/
def fallbackReading (freq : ℚ) (t0 : ℚ × ℚ × ℚ) (rest : List (ℚ × ℚ × ℚ)) :
    (ℚ × ℚ × ℚ) × ℚ :=
  minDelayFold freq rest (t0, readingDelay freq t0)

/-- Hardware timestamp of the fallback candidate (hwclock.c line 233). -/
def fallbackHw (freq : ℚ) (t0 : ℚ × ℚ × ℚ) (rest : List (ℚ × ℚ × ℚ)) : ℚ :=
  (fallbackReading freq t0 rest).1.2.1

/-- Local timestamp of the fallback candidate (hwclock.c line 234):
the minimum-delay reading's poll-start plus `min_delay / freq / 2`. -/
def fallbackLocal (freq : ℚ) (t0 : ℚ × ℚ × ℚ) (rest : List (ℚ × ℚ × ℚ)) : ℚ :=
  (fallbackReading freq t0 rest).1.1 + (fallbackReading freq t0 rest).2 / freq / 2

/-- Error of the fallback candidate (hwclock.c line 235):
`MAX(min_delay / 2.0, clock->precision)`. -/
def fallbackErr (clock : ClockModel) (freq : ℚ) (t0 : ℚ × ℚ × ℚ)
    (rest : List (ℚ × ℚ × ℚ)) : ℚ :=
  max ((fallbackReading freq t0 rest).2 / 2) clock.precision

/-- `HCL_ProcessReadings` (hwclock.c lines 162-246).  `lclCook` stands for
`LCL_CookTime`, `qlow`/`qhigh` for the two `QNT_GetQuantile` values queried
after this batch's delays were accumulated, and `local_prec` for
`LCL_GetSysPrecisionAsQuantum()`, all external.  The C code returns 0 at
the first negative delay it scans; since that makes the whole call fail
regardless of the remaining readings (and the quantile estimator is
external state), the abort is rendered as an existence check. -/
def HCL_ProcessReadings (clock : ClockModel) (lclCook : ℚ → ℚ)
    (qlow qhigh local_prec : ℚ) (tss : List (ℚ × ℚ × ℚ)) : Option (ℚ × ℚ × ℚ) :=
  match tss with
  | [] => none
  | t0 :: rest =>
    let freq := batchFreq lclCook (t0 :: rest)
    if (t0 :: rest).any (fun t => decide (readingDelay freq t < 0)) then none
    else
      let accepted := acceptedReadings freq qlow qhigh local_prec (t0 :: rest)
      if accepted.length ≠ 0 then
        some (t0.2.1 + (accepted.map (fun t => t.2.1 - t0.2.1)).sum / (accepted.length : ℚ),
              t0.1 + (accepted.map (fun t => t.1 - t0.1 + rawDelay t / 2)).sum / (accepted.length : ℚ),
              max ((accepted.map (readingDelay freq)).sum / (accepted.length : ℚ) / 2) clock.precision)
      else
        let hw := fallbackHw freq t0 rest
        let lts := fallbackLocal freq t0 rest
        let e := fallbackErr clock freq t0 rest
        match HCL_CookTime clock hw with
        | none => some (hw, lts, e)
        | some p => if e < lclCook lts - p.1 then some (hw, lts, e) else none

/-- States reachable through the public mutating operations: construction,
sample accumulation (with an arbitrary external fitter and frequency
reading), and the slew handler.  `HCL_ProcessReadings`, `HCL_CookTime` and
`HCL_NeedsNewSample` do not modify the `HCL_Instance_Record` state. -/
inductive Reachable : ClockModel → Prop
  | create (min_samples max_samples : ℤ) (min_separation precision : ℚ)
      (mem_x mem_y : ℕ → ℚ) :
      Reachable (HCL_CreateInstance min_samples max_samples min_separation precision mem_x mem_y)
  | accumulate (c : ClockModel) (fit : (ℕ → ℚ) → (ℕ → ℚ) → ℕ → RegrResult)
      (freq_ppm hw_ts local_ts err : ℚ) (h : Reachable c) :
      Reachable (HCL_AccumulateSample c fit freq_ppm hw_ts local_ts err)
  | slew (c : ClockModel) (adjust : ℚ → ℚ) (dfreq : ℚ) (h : Reachable c) :
      Reachable (handle_slew c adjust dfreq)

/-! ### Concrete instances used by witnesses and counterexamples -/

/-- Concrete clock state holding a valid fit. -/
def exClock : ClockModel :=
  { hw_ref := 1, local_ref := 2, x_data := fun _ => 0, y_data := fun _ => 0,
    min_samples := 2, max_samples := 8, n_samples := 2, last_err := 5,
    min_separation := 1, precision := 0, valid_coefs := true, offset := 3, frequency := 2 }

/-- Concrete clock state with identical hardware and local references. -/
def exClockDisc : ClockModel :=
  { exClock with hw_ref := 10, local_ref := 10, n_samples := 3 }

/-- Concrete clock state with five live samples. -/
def exClockFive : ClockModel :=
  { exClock with n_samples := 5 }

/-- Concrete regression result suggesting a trim of two samples. -/
def resTrim : RegrResult := ⟨true, 0, 1, 0, 2⟩

/-- Regression oracle reporting an intercept far outside the sample error. -/
def fitBad : (ℕ → ℚ) → (ℕ → ℚ) → ℕ → RegrResult :=
  fun _ _ _ => ⟨true, 10, 1, 0, 0⟩

/-! ### C1: HCL_CookTime -/

/-- C1: for every ClockModel state, `HCL_CookTime` fails (returns none)
exactly when `valid_coefs` is false; when a valid fit exists it returns
`cooked = local_ref + ((raw_hw_ts - hw_ref) / frequency - offset)` with the
reported error equal to `last_err`, the error of the last accumulated
sample, not re-derived per call. -/
theorem cookTime_spec (c : ClockModel) (raw : ℚ) :
    (HCL_CookTime c raw = none ↔ c.valid_coefs = false) ∧
    (c.valid_coefs = true →
      HCL_CookTime c raw =
        some (c.local_ref + ((raw - c.hw_ref) / c.frequency - c.offset), c.last_err)) := by
  unfold HCL_CookTime
  cases h : c.valid_coefs <;> simp [h]

/-- Witness for C1 at a concrete state with a valid fit. -/
theorem cookTime_spec_witness :
    HCL_CookTime exClock 7 =
      some (exClock.local_ref + ((7 - exClock.hw_ref) / exClock.frequency - exClock.offset),
            exClock.last_err) :=
  (cookTime_spec exClock 7).2 rfl

/-! ### C4: discontinuity detection in HCL_AccumulateSample -/

/-- C4: for every ClockModel with at least one live sample, an
`HCL_AccumulateSample` call whose arguments give `hw_delta = hw_ts - hw_ref
≤ 0` or `local_delta < min_separation / 2` is treated as a clock
discontinuity: the shift phase of the call discards all live samples,
resetting `n_samples` to 0. -/
theorem accumShift_discontinuity_resets (c : ClockModel) (hw_ts local_ts local_freq : ℚ)
    (h1 : 1 ≤ c.n_samples)
    (h2 : hw_ts - c.hw_ref ≤ 0 ∨
          (local_ts - c.local_ref) / local_freq < c.min_separation / 2) :
    (accumShift c hw_ts local_ts local_freq).n_samples = 0 := by
  have h0 : ¬ c.n_samples = 0 := by omega
  simp only [accumShift, h0, if_false, ite_false]
  split_ifs with hcap <;> rfl

/-- Witness for C4: a repeated hardware timestamp (`hw_delta = 0`) resets
the live count. -/
theorem accumShift_discontinuity_resets_witness :
    (accumShift exClockDisc 10 20 1).n_samples = 0 :=
  accumShift_discontinuity_resets exClockDisc 10 20 1 (by norm_num [exClockDisc, exClock])
    (Or.inl (by norm_num [exClockDisc, exClock]))

/-! ### C9: constructor clamping -/

/-- C9: `HCL_CreateInstance` clamps `min_samples` and `max_samples` into
[2, 64] and then raises `max_samples` to at least `min_samples`; in
particular `min_samples = 1` yields 2, `max_samples = 1000` yields 64, and
`max_samples ≤ min_samples` yields `max_samples = min_samples`. -/
theorem createInstance_clamping (a b : ℤ) (sep prec : ℚ) (mx my : ℕ → ℚ) :
    2 ≤ (HCL_CreateInstance a b sep prec mx my).min_samples ∧
    (HCL_CreateInstance a b sep prec mx my).min_samples ≤ 64 ∧
    2 ≤ (HCL_CreateInstance a b sep prec mx my).max_samples ∧
    (HCL_CreateInstance a b sep prec mx my).max_samples ≤ 64 ∧
    (HCL_CreateInstance a b sep prec mx my).min_samples ≤
      (HCL_CreateInstance a b sep prec mx my).max_samples ∧
    (HCL_CreateInstance 1 b sep prec mx my).min_samples = 2 ∧
    (HCL_CreateInstance a 1000 sep prec mx my).max_samples = 64 ∧
    (b ≤ a → (HCL_CreateInstance a b sep prec mx my).max_samples =
             (HCL_CreateInstance a b sep prec mx my).min_samples) := by
  unfold HCL_CreateInstance CLAMP MIN_SAMPLES MAX_SAMPLES
  simp only []
  omega

/-- Witness for C9: arguments (5, 3) give max_samples = min_samples = 5. -/
theorem createInstance_clamping_witness :
    (HCL_CreateInstance 5 3 0 0 (fun _ => 0) (fun _ => 0)).max_samples =
    (HCL_CreateInstance 5 3 0 0 (fun _ => 0) (fun _ => 0)).min_samples :=
  (createInstance_clamping 5 3 0 0 (fun _ => 0) (fun _ => 0)).2.2.2.2.2.2.2 (by norm_num)

/-! ### C5: HCL_CookTime at the reference point -/

/-- Regression oracle used by the C5 counterexample: like the real fitter
it reports no fit below 3 points; at 3 points it reports a fit with
intercept 1/10 (well inside the sample error 1/2, so the sanity check
passes) and slope 1. -/
def fitThree : (ℕ → ℚ) → (ℕ → ℚ) → ℕ → RegrResult :=
  fun _ _ n => if n < 3 then ⟨false, 0, 0, 0, 0⟩ else ⟨true, 1/10, 1, 1, 0⟩

/-- Clock state after three accumulated samples (local times 0, 10, 20,
hardware equal to local) whose fit has a nonzero intercept. -/
def cookCeState : ClockModel :=
  HCL_AccumulateSample
    (HCL_AccumulateSample
      (HCL_AccumulateSample
        (HCL_CreateInstance 3 8 1 (1/1000000) (fun _ => 0) (fun _ => 0))
        fitThree 0 0 0 (1/2))
      fitThree 0 10 10 (1/2))
    fitThree 0 20 20 (1/2)

/-- C5 counterexample: a reachable state holding a valid fit whose fitted
intercept is 1/10; `HCL_CookTime` applied to `hw_ref` returns
`local_ref - offset = 199/10`, not `local_ref = 20`.  The claim that
`cook_time(hw_ref)` reproduces `local_ref` exactly fails whenever the
fitted offset is nonzero. -/
theorem cookTime_at_ref_counterexample :
    cookCeState.valid_coefs = true ∧
    cookCeState.hw_ref = 20 ∧
    cookCeState.local_ref = 20 ∧
    cookCeState.offset = 1/10 ∧
    HCL_CookTime cookCeState cookCeState.hw_ref = some (199/10, 1/2) ∧
    (199/10 : ℚ) ≠ cookCeState.local_ref := by
  have habs : |(1 : ℚ)/10| = 1/10 := by rw [abs_of_nonneg] ; norm_num
  refine ⟨?_, ?_, ?_, ?_, ?_, ?_⟩ <;>
    norm_num [cookCeState, HCL_AccumulateSample, HCL_CreateInstance, CLAMP, MIN_SAMPLES,
      MAX_SAMPLES, accumShift, appendSample, windowFit, accumPost, trimStep, fitThree,
      HCL_CookTime, MAX_FREQ_OFFSET, shiftLoop, upd, habs, Int.toNat_ofNat]

/-- C5 (amended): for every ClockModel holding a valid fit,
`HCL_CookTime` applied to `hw_ref` returns `local_ref - offset` (together
with `last_err`); it reproduces `local_ref` exactly only when the fitted
offset is zero. -/
theorem cookTime_at_ref (c : ClockModel) (h : c.valid_coefs = true) :
    HCL_CookTime c c.hw_ref = some (c.local_ref - c.offset, c.last_err) := by
  unfold HCL_CookTime
  simp [h, sub_self, zero_div, sub_eq_add_neg]

/-- Witness for the amended C5 at a concrete state with a valid fit. -/
theorem cookTime_at_ref_witness :
    HCL_CookTime exClock exClock.hw_ref = some (exClock.local_ref - exClock.offset, exClock.last_err) :=
  cookTime_at_ref exClock rfl

/-! ### C2: the post-fit sanity check -/

/-- C2: after every `HCL_AccumulateSample` call in which the regression fit
succeeds but the sanity check fails (`|offset| > err` of the just-accumulated
sample, or `|frequency - 1| > MAX_FREQ_OFFSET`), the state has
`valid_coefs = false` and `n_samples = 0`; consequently, immediately after
any call that leaves `valid_coefs` true, `|offset| ≤ err` and
`|frequency - 1| ≤ 2/3` hold.  Here the fit result of the call is
`windowFit` of the post-append state, exactly as in `HCL_AccumulateSample`. -/
theorem accumulate_sanity_check (c : ClockModel)
    (fit : (ℕ → ℚ) → (ℕ → ℚ) → ℕ → RegrResult) (freq_ppm hw_ts local_ts err : ℚ) :
    ((windowFit (appendSample (accumShift c hw_ts local_ts (1 - freq_ppm / 1000000))
          hw_ts local_ts err) fit).valid = true ∧
     (err < |(windowFit (appendSample (accumShift c hw_ts local_ts (1 - freq_ppm / 1000000))
          hw_ts local_ts err) fit).offset| ∨
      MAX_FREQ_OFFSET < |(windowFit (appendSample (accumShift c hw_ts local_ts
          (1 - freq_ppm / 1000000)) hw_ts local_ts err) fit).slope /
            (1 - freq_ppm / 1000000) - 1|) →
      (HCL_AccumulateSample c fit freq_ppm hw_ts local_ts err).valid_coefs = false ∧
      (HCL_AccumulateSample c fit freq_ppm hw_ts local_ts err).n_samples = 0) ∧
    ((HCL_AccumulateSample c fit freq_ppm hw_ts local_ts err).valid_coefs = true →
      |(HCL_AccumulateSample c fit freq_ppm hw_ts local_ts err).offset| ≤ err ∧
      |(HCL_AccumulateSample c fit freq_ppm hw_ts local_ts err).frequency - 1| ≤ MAX_FREQ_OFFSET) := by
  have key : ∀ (d : ClockModel) (res : RegrResult) (lf e : ℚ),
      (res.valid = true ∧ (e < |res.offset| ∨ MAX_FREQ_OFFSET < |res.slope / lf - 1|) →
        (accumPost d res lf e).valid_coefs = false ∧ (accumPost d res lf e).n_samples = 0) ∧
      ((accumPost d res lf e).valid_coefs = true →
        |(accumPost d res lf e).offset| ≤ e ∧
        |(accumPost d res lf e).frequency - 1| ≤ MAX_FREQ_OFFSET) := by
    intro d res lf e
    unfold accumPost
    cases hv : res.valid
    · simp [hv]
    · simp only [hv, if_true, ite_true]
      split_ifs with hbad
      · simp
      · push_neg at hbad
        simp [hbad]
  exact key (appendSample (accumShift c hw_ts local_ts (1 - freq_ppm / 1000000))
      hw_ts local_ts err)
    (windowFit (appendSample (accumShift c hw_ts local_ts (1 - freq_ppm / 1000000))
      hw_ts local_ts err) fit)
    (1 - freq_ppm / 1000000) err

/-- Witness for C2 at a concrete state and a fit whose intercept (10) lies
far outside the sample error (1): the call resets the model. -/
theorem accumulate_sanity_check_witness :
    (HCL_AccumulateSample exClock fitBad 0 5 5 1).valid_coefs = false ∧
    (HCL_AccumulateSample exClock fitBad 0 5 5 1).n_samples = 0 :=
  (accumulate_sanity_check exClock fitBad 0 5 5 1).1
    ⟨rfl, Or.inl (by norm_num [windowFit, fitBad])⟩

/-! ### C7: the trim step -/

/-- C7: on every `HCL_AccumulateSample` call whose regression fit succeeds
with the live count `n` exceeding `min_samples`, the trim step decreases
`n_samples` by exactly `min(best_start, n - min_samples)` — so the count
never drops below `min_samples` and never by more than the fitter
recommends.  `accumPost` is the post-fit phase of `HCL_AccumulateSample`;
when the subsequent sanity check passes, the call's final count is the
trimmed one. -/
theorem accumulate_trim (c : ClockModel) (res : RegrResult) (local_freq err : ℚ)
    (hv : res.valid = true) (hn : c.min_samples < c.n_samples) :
    trimStep c.n_samples c.min_samples res.best_start
      = c.n_samples - min res.best_start (c.n_samples - c.min_samples) ∧
    c.min_samples ≤ trimStep c.n_samples c.min_samples res.best_start ∧
    c.n_samples - trimStep c.n_samples c.min_samples res.best_start ≤ res.best_start ∧
    (¬ (err < |res.offset| ∨ MAX_FREQ_OFFSET < |res.slope / local_freq - 1|) →
      (accumPost c res local_freq err).n_samples
        = trimStep c.n_samples c.min_samples res.best_start) := by
  refine ⟨by simp [trimStep, hn], ?_, ?_, ?_⟩
  · unfold trimStep
    split_ifs <;> omega
  · unfold trimStep
    split_ifs <;> omega
  · intro hok
    unfold accumPost
    simp only [hv, if_true, ite_true]
    rw [if_neg (by simpa using hok)]

/-- Witness for C7: with five live samples, `min_samples = 2` and a
suggested trim index of 2, the live count drops to 3, staying at or above
`min_samples`. -/
theorem accumulate_trim_witness :
    exClockFive.min_samples ≤
      trimStep exClockFive.n_samples exClockFive.min_samples resTrim.best_start :=
  (accumulate_trim exClockFive resTrim 1 1 rfl (by norm_num [exClockFive, exClock])).2.1

/-! ### C8: negative delay aborts the batch -/

/-- C8: for every batch passed to `HCL_ProcessReadings`, if any reading's
computed delay `freq * (poll_end - poll_start)` is negative, the call
returns failure for the whole batch, independent of the other readings. -/
theorem processReadings_negative_delay (clock : ClockModel) (lclCook : ℚ → ℚ)
    (qlow qhigh local_prec : ℚ) (tss : List (ℚ × ℚ × ℚ)) (t : ℚ × ℚ × ℚ)
    (ht : t ∈ tss) (hneg : readingDelay (batchFreq lclCook tss) t < 0) :
    HCL_ProcessReadings clock lclCook qlow qhigh local_prec tss = none := by
  cases tss with
  | nil => cases ht
  | cons t0 rest =>
    have hany : (t0 :: rest).any
        (fun t => decide (readingDelay (batchFreq lclCook (t0 :: rest)) t < 0)) = true := by
      simp only [List.any_eq_true, decide_eq_true_eq]
      exact ⟨t, ht, hneg⟩
    simp only [HCL_ProcessReadings, hany, if_true, ite_true]

/-- Witness for C8: a single reading whose poll-end precedes its poll-start. -/
theorem processReadings_negative_delay_witness :
    HCL_ProcessReadings exClock (fun x => x) 0 0 0 [(0, 0, -1)] = none :=
  processReadings_negative_delay exClock (fun x => x) 0 0 0 [(0, 0, -1)] (0, 0, -1)
    (by norm_num)
    (by norm_num [readingDelay, rawDelay, batchFreq, List.getLastD])

/-! ### C6: combining readings inside the acceptance band -/

/-- C6: whenever `HCL_ProcessReadings` accepts at least one reading whose
delay lies within the [low, high] acceptance band, it returns success with
`hw_ts = hw_0 +` the mean over accepted readings of `(hw_i - hw_0)`,
`local_ts = local_0 +` the mean of `(local_i - local_0 + raw_delay_i / 2)`,
and `err = max(mean accepted delay / 2, precision)`. -/
theorem processReadings_combined (clock : ClockModel) (lclCook : ℚ → ℚ)
    (qlow qhigh local_prec : ℚ) (t0 : ℚ × ℚ × ℚ) (rest : List (ℚ × ℚ × ℚ))
    (hpos : ∀ t ∈ t0 :: rest, 0 ≤ readingDelay (batchFreq lclCook (t0 :: rest)) t)
    (hacc : acceptedReadings (batchFreq lclCook (t0 :: rest)) qlow qhigh local_prec
        (t0 :: rest) ≠ []) :
    HCL_ProcessReadings clock lclCook qlow qhigh local_prec (t0 :: rest) =
      some
        (t0.2.1 +
           ((acceptedReadings (batchFreq lclCook (t0 :: rest)) qlow qhigh local_prec
               (t0 :: rest)).map (fun t => t.2.1 - t0.2.1)).sum /
             ((acceptedReadings (batchFreq lclCook (t0 :: rest)) qlow qhigh local_prec
               (t0 :: rest)).length : ℚ),
         t0.1 +
           ((acceptedReadings (batchFreq lclCook (t0 :: rest)) qlow qhigh local_prec
               (t0 :: rest)).map (fun t => t.1 - t0.1 + rawDelay t / 2)).sum /
             ((acceptedReadings (batchFreq lclCook (t0 :: rest)) qlow qhigh local_prec
               (t0 :: rest)).length : ℚ),
         max (((acceptedReadings (batchFreq lclCook (t0 :: rest)) qlow qhigh local_prec
               (t0 :: rest)).map (readingDelay (batchFreq lclCook (t0 :: rest)))).sum /
             ((acceptedReadings (batchFreq lclCook (t0 :: rest)) qlow qhigh local_prec
               (t0 :: rest)).length : ℚ) / 2)
           clock.precision) := by
  have hany : ¬ ((t0 :: rest).any
      (fun t => decide (readingDelay (batchFreq lclCook (t0 :: rest)) t < 0)) = true) := by
    simp only [List.any_eq_true, decide_eq_true_eq, not_exists]
    intro t
    simp only [not_and, not_lt]
    intro htm
    exact hpos t htm
  have hlen : (acceptedReadings (batchFreq lclCook (t0 :: rest)) qlow qhigh local_prec
      (t0 :: rest)).length ≠ 0 := by
    simpa [List.length_eq_zero] using hacc
  simp only [HCL_ProcessReadings]
  rw [if_neg hany, if_pos hlen]

/-- Witness for C6: one reading with delay 2 inside the band [1, 3];
the combined result is (100, 1, 1). -/
theorem processReadings_combined_witness :
    HCL_ProcessReadings exClock (fun x => x) 1 3 0 [(0, 100, 2)] = some (100, 1, 1) := by
  rw [processReadings_combined exClock (fun x => x) 1 3 0 (0, 100, 2) []
    (by intro t htm
        simp only [List.mem_singleton] at htm
        subst htm
        norm_num [readingDelay, rawDelay, batchFreq, List.getLastD])
    (by norm_num [acceptedReadings, lowDelay, highDelay, readingDelay, rawDelay, batchFreq,
          List.getLastD, List.filter])]
  norm_num [acceptedReadings, lowDelay, highDelay, readingDelay, rawDelay, batchFreq,
    List.getLastD, List.filter, exClock]

/-! ### C3: the minimum-delay fallback -/

/-- C3 (amended): when no reading's delay lies in the acceptance band, the
minimum-delay fallback candidate is returned as success if and only if
either no valid fit currently exists, or the reference-cooked candidate
`local_ts` exceeds the current model's prediction for `hw_ts` by more than
`err` — a one-sided, signed comparison (`pred_err > err` on the signed
difference), not a two-sided disagreement; otherwise the call fails. -/
theorem processReadings_fallback (clock : ClockModel) (lclCook : ℚ → ℚ)
    (qlow qhigh local_prec : ℚ) (t0 : ℚ × ℚ × ℚ) (rest : List (ℚ × ℚ × ℚ))
    (hpos : ∀ t ∈ t0 :: rest, 0 ≤ readingDelay (batchFreq lclCook (t0 :: rest)) t)
    (hacc : acceptedReadings (batchFreq lclCook (t0 :: rest)) qlow qhigh local_prec
        (t0 :: rest) = []) :
    (HCL_ProcessReadings clock lclCook qlow qhigh local_prec (t0 :: rest) =
       some (fallbackHw (batchFreq lclCook (t0 :: rest)) t0 rest,
             fallbackLocal (batchFreq lclCook (t0 :: rest)) t0 rest,
             fallbackErr clock (batchFreq lclCook (t0 :: rest)) t0 rest) ∨
     HCL_ProcessReadings clock lclCook qlow qhigh local_prec (t0 :: rest) = none) ∧
    (HCL_ProcessReadings clock lclCook qlow qhigh local_prec (t0 :: rest) =
       some (fallbackHw (batchFreq lclCook (t0 :: rest)) t0 rest,
             fallbackLocal (batchFreq lclCook (t0 :: rest)) t0 rest,
             fallbackErr clock (batchFreq lclCook (t0 :: rest)) t0 rest) ↔
     (clock.valid_coefs = false ∨
      fallbackErr clock (batchFreq lclCook (t0 :: rest)) t0 rest <
        lclCook (fallbackLocal (batchFreq lclCook (t0 :: rest)) t0 rest) -
          (clock.local_ref +
            ((fallbackHw (batchFreq lclCook (t0 :: rest)) t0 rest - clock.hw_ref) /
                clock.frequency - clock.offset)))) := by
  have hany : ¬ ((t0 :: rest).any
      (fun t => decide (readingDelay (batchFreq lclCook (t0 :: rest)) t < 0)) = true) := by
    simp only [List.any_eq_true, decide_eq_true_eq, not_exists]
    intro t
    simp only [not_and, not_lt]
    intro htm
    exact hpos t htm
  have hlen : ¬ ((acceptedReadings (batchFreq lclCook (t0 :: rest)) qlow qhigh local_prec
      (t0 :: rest)).length ≠ 0) := by
    simp [hacc]
  simp only [HCL_ProcessReadings]
  rw [if_neg hany, if_neg hlen]
  cases hvc : clock.valid_coefs
  · have hcook : HCL_CookTime clock (fallbackHw (batchFreq lclCook (t0 :: rest)) t0 rest)
        = none := by
      simp [HCL_CookTime, hvc]
    rw [hcook]
    exact ⟨Or.inl rfl, ⟨fun _ => Or.inl rfl, fun _ => rfl⟩⟩
  · have hcook : HCL_CookTime clock (fallbackHw (batchFreq lclCook (t0 :: rest)) t0 rest)
        = some (clock.local_ref +
            ((fallbackHw (batchFreq lclCook (t0 :: rest)) t0 rest - clock.hw_ref) /
                clock.frequency - clock.offset), clock.last_err) := by
      simp [HCL_CookTime, hvc]
    rw [hcook]
    simp only []
    split_ifs with hlt
    · exact ⟨Or.inl rfl, ⟨fun _ => Or.inr hlt, fun _ => rfl⟩⟩
    · refine ⟨Or.inr rfl, ⟨fun hsome => ?_, fun hr => ?_⟩⟩
      · exact absurd hsome (by simp)
      · rcases hr with h | h
        · simp at h
        · exact absurd h hlt

/-- Concrete clock state with a valid fit whose prediction runs 100 seconds
ahead of hardware time. -/
def ceClock : ClockModel :=
  { hw_ref := 0, local_ref := 0, x_data := fun _ => 0, y_data := fun _ => 0,
    min_samples := 2, max_samples := 8, n_samples := 3, last_err := 0,
    min_separation := 0, precision := 0, valid_coefs := true, offset := -100, frequency := 1 }

/-- C3 counterexample: the claim reads the acceptance test as a two-sided
disagreement (|candidate − prediction| > err), but the code's test
(hwclock.c lines 239-240) is the one-sided signed comparison
`pred_err = cooked(local_ts) − prediction > err`.  Here a valid fit exists,
no reading is in the band, and the prediction (105) overshoots the fallback
candidate `local_ts = 1/2` by far more than `err = 1/2` — a disagreement of
209/2 — yet the call returns failure. -/
theorem processReadings_fallback_counterexample :
    ceClock.valid_coefs = true ∧
    acceptedReadings (batchFreq (fun x => x) [(0, 5, 1)]) 5 5 0 [(0, 5, 1)] = [] ∧
    fallbackLocal (batchFreq (fun x => x) [(0, 5, 1)]) (0, 5, 1) [] = 1/2 ∧
    fallbackErr ceClock (batchFreq (fun x => x) [(0, 5, 1)]) (0, 5, 1) [] = 1/2 ∧
    HCL_CookTime ceClock (fallbackHw (batchFreq (fun x => x) [(0, 5, 1)]) (0, 5, 1) [])
      = some (105, 0) ∧
    (1/2 : ℚ) < |(1/2 : ℚ) - 105| ∧
    HCL_ProcessReadings ceClock (fun x => x) 5 5 0 [(0, 5, 1)] = none := by
  have habs : |(1/2 : ℚ) - 105| = 209/2 := by
    rw [abs_of_nonpos (by norm_num)]
    norm_num
  have habs2 : |(209 : ℚ)/2| = 209/2 := by
    rw [abs_of_nonneg (by norm_num)]
  refine ⟨rfl, ?_, ?_, ?_, ?_, ?_, ?_⟩ <;>
    norm_num [HCL_ProcessReadings, HCL_CookTime, acceptedReadings, lowDelay, highDelay,
      readingDelay, rawDelay, batchFreq, List.getLastD, List.filter, fallbackHw,
      fallbackLocal, fallbackErr, fallbackReading, minDelayFold, ceClock, habs, habs2]

/-- Unconfigured clock instance: no fit exists yet. -/
def freshClock : ClockModel :=
  HCL_CreateInstance 3 8 1 0 (fun _ => 0) (fun _ => 0)

/-- Witness for the amended C3: with no valid fit, the fallback candidate
(5, 1/2, 1/2) is accepted. -/
theorem processReadings_fallback_witness :
    HCL_ProcessReadings freshClock (fun x => x) 5 5 0 [(0, 5, 1)] = some (5, 1/2, 1/2) := by
  have h := processReadings_fallback freshClock (fun x => x) 5 5 0 (0, 5, 1) []
    (by intro t htm
        simp only [List.mem_singleton] at htm
        subst htm
        norm_num [readingDelay, rawDelay, batchFreq, List.getLastD])
    (by norm_num [acceptedReadings, lowDelay, highDelay, readingDelay, rawDelay, batchFreq,
          List.getLastD, List.filter])
  rw [h.2.mpr (Or.inl (by norm_num [freshClock, HCL_CreateInstance]))]
  norm_num [fallbackHw, fallbackLocal, fallbackErr, fallbackReading, minDelayFold,
    readingDelay, rawDelay, batchFreq, List.getLastD, freshClock, HCL_CreateInstance]

/-! ### C10: the last array slot is invariantly zero -/

/-- Slots at or above `i + fuel - 1` are untouched by the shift loop:
writes go to `i - 1, ..., i + fuel - 2` only (`1 ≤ i` rules out the
underflow slot). -/
theorem shiftLoop_high (d : ℚ) :
    ∀ (fuel i : ℕ) (a : ℕ → ℚ) (j : ℕ), 1 ≤ i → i + fuel ≤ j + 1 →
      shiftLoop d fuel i a j = a j := by
  intro fuel
  induction fuel with
  | zero =>
    intro i a j h1 h2
    rfl
  | succ n ih =>
    intro i a j h1 h2
    show shiftLoop d n (i + 1) (upd a (i - 1) (a i - d)) j = a j
    rw [ih (i + 1) _ j (by omega) (by omega)]
    unfold upd
    rw [if_neg (by omega : ¬ j = i - 1)]

/-- The shift phase preserves `max_samples`, leaves the post-shift count at
most `max_samples - 1`, and never touches the last array slot. -/
theorem accumShift_inv (c : ClockModel) (hw_ts local_ts lf : ℚ)
    (hmax : 2 ≤ c.max_samples) (hn : c.n_samples ≤ c.max_samples) :
    (accumShift c hw_ts local_ts lf).max_samples = c.max_samples ∧
    (accumShift c hw_ts local_ts lf).n_samples + 1 ≤ c.max_samples ∧
    (accumShift c hw_ts local_ts lf).x_data (c.max_samples - 1)
      = c.x_data (c.max_samples - 1) ∧
    (accumShift c hw_ts local_ts lf).y_data (c.max_samples - 1)
      = c.y_data (c.max_samples - 1) := by
  by_cases h0 : c.n_samples = 0
  · refine ⟨by simp [accumShift, h0], by simp [accumShift, h0]; omega,
      by simp [accumShift, h0], by simp [accumShift, h0]⟩
  · simp only [accumShift, h0, if_false, ite_false]
    split_ifs with hcap hd hd <;>
      exact ⟨rfl, by (try dsimp only); omega,
        shiftLoop_high _ _ _ _ _ (by (try dsimp only); omega) (by (try dsimp only); omega),
        shiftLoop_high _ _ _ _ _ (by (try dsimp only); omega) (by (try dsimp only); omega)⟩

/-- The post-fit phase preserves `max_samples` and the arrays and never
increases the live count. -/
theorem accumPost_inv (c : ClockModel) (res : RegrResult) (lf e : ℚ) :
    (accumPost c res lf e).max_samples = c.max_samples ∧
    (accumPost c res lf e).n_samples ≤ c.n_samples ∧
    (accumPost c res lf e).x_data = c.x_data ∧
    (accumPost c res lf e).y_data = c.y_data := by
  unfold accumPost
  cases hv : res.valid
  · simp
  · simp only [if_true, ite_true]
    split_ifs with hbad
    · refine ⟨rfl, ?_, rfl, rfl⟩
      dsimp only
      omega
    · refine ⟨rfl, ?_, rfl, rfl⟩
      dsimp only
      unfold trimStep
      split_ifs <;> omega

/-- Invariant of reachable states: `max_samples` is at least 2, the live
count never exceeds it, and the last slot of both sample arrays is zero. -/
theorem reachable_inv (c : ClockModel) (h : Reachable c) :
    2 ≤ c.max_samples ∧ c.n_samples ≤ c.max_samples ∧
    c.x_data (c.max_samples - 1) = 0 ∧ c.y_data (c.max_samples - 1) = 0 := by
  induction h with
  | create a b sep prec mx my =>
    unfold HCL_CreateInstance CLAMP MIN_SAMPLES MAX_SAMPLES
    refine ⟨by dsimp only; omega, by dsimp only; omega, ?_, ?_⟩ <;>
      · dsimp only [upd]
        rw [if_pos rfl]
  | accumulate c fit ppm hw lt err hr ih =>
    obtain ⟨hmax, hn, hx, hy⟩ := ih
    obtain ⟨hsmax, hsn, hsx, hsy⟩ := accumShift_inv c hw lt (1 - ppm / 1000000) hmax hn
    have hdef : HCL_AccumulateSample c fit ppm hw lt err =
        accumPost (appendSample (accumShift c hw lt (1 - ppm / 1000000)) hw lt err)
          (windowFit (appendSample (accumShift c hw lt (1 - ppm / 1000000)) hw lt err) fit)
          (1 - ppm / 1000000) err := rfl
    obtain ⟨hpmax, hpn, hpx, hpy⟩ := accumPost_inv
      (appendSample (accumShift c hw lt (1 - ppm / 1000000)) hw lt err)
      (windowFit (appendSample (accumShift c hw lt (1 - ppm / 1000000)) hw lt err) fit)
      (1 - ppm / 1000000) err
    have haddmax : (appendSample (accumShift c hw lt (1 - ppm / 1000000)) hw lt err).max_samples
        = c.max_samples := hsmax
    have haddn : (appendSample (accumShift c hw lt (1 - ppm / 1000000)) hw lt err).n_samples
        ≤ c.max_samples := hsn
    have haddx : (appendSample (accumShift c hw lt (1 - ppm / 1000000)) hw lt err).x_data
        (c.max_samples - 1) = 0 := hsx.trans hx
    have haddy : (appendSample (accumShift c hw lt (1 - ppm / 1000000)) hw lt err).y_data
        (c.max_samples - 1) = 0 := hsy.trans hy
    rw [hdef]
    exact ⟨by rw [hpmax, haddmax]; exact hmax,
           by rw [hpmax, haddmax]; exact le_trans hpn haddn,
           by rw [hpmax, haddmax, hpx]; exact haddx,
           by rw [hpmax, haddmax, hpy]; exact haddy⟩
  | slew c adjust dfreq hr ih =>
    obtain ⟨hmax, hn, hx, hy⟩ := ih
    simp only [handle_slew]
    split_ifs <;> exact ⟨hmax, hn, hx, hy⟩

/-- C10: in every reachable ClockModel state the last slot of the sample
arrays holds zero (`x_data (max_samples - 1) = 0` and
`y_data (max_samples - 1) = 0`): the constructor zero-initializes only that
slot, and the rebase/shift loop of `HCL_AccumulateSample` writes only slots
below it, so the newest live sample is always stored as the pair (0, 0)
relative to the current `hw_ref`/`local_ref` without ever being explicitly
written at append time. -/
theorem reachable_last_slot_zero (c : ClockModel) (h : Reachable c) :
    c.x_data (c.max_samples - 1) = 0 ∧ c.y_data (c.max_samples - 1) = 0 :=
  ⟨(reachable_inv c h).2.2.1, (reachable_inv c h).2.2.2⟩

/-- Witness for C10 at a freshly constructed instance whose uninitialized
array memory is the constant 1. -/
theorem reachable_last_slot_zero_witness :
    (HCL_CreateInstance 3 8 1 0 (fun _ => 1) (fun _ => 1)).x_data
        ((HCL_CreateInstance 3 8 1 0 (fun _ => 1) (fun _ => 1)).max_samples - 1) = 0 ∧
    (HCL_CreateInstance 3 8 1 0 (fun _ => 1) (fun _ => 1)).y_data
        ((HCL_CreateInstance 3 8 1 0 (fun _ => 1) (fun _ => 1)).max_samples - 1) = 0 :=
  reachable_last_slot_zero _ (Reachable.create 3 8 1 0 (fun _ => 1) (fun _ => 1))
